import Mathlib

/-!
Verification of the keyword-search core of `file_tools.py` (class `Tools`,
method `search_files`, lines 264-289).

The Python method is:

```
def search_files(self, keyword: str, directory: str = "") -> list:
    search_path = os.path.join(self.base_path, directory)
    matching_files = []
    for root, dirs, files in os.walk(search_path):
        for file in files:
            if keyword in file:
                matching_files.append(os.path.join(root, file))
            else:
                file_path = os.path.join(root, file)
                try:
                    with open(file_path, "r") as f:
                        if keyword in f.read():
                            matching_files.append(file_path)
                except (UnicodeDecodeError, PermissionError):
                    # Skip files that can't be read as text
                    pass
    return matching_files
```

The embedding models one invocation against a fixed snapshot of the
filesystem subtree rooted at the resolved search path.  The external
collaborators are modelled by their documented CPython semantics:

* `os.walk(top)` (top-down, default `onerror=None`, `followlinks=False`):
  for each directory it yields `(dirpath, dirnames, filenames)` where
  `filenames` are the non-directory entries in `os.listdir` order, then
  recurses into each subdirectory in `dirnames` order.  If `top` does not
  exist or is not a directory, the initial `scandir` error is swallowed by
  the default error handler and the walk yields nothing.
* `os.path.join(a, b)`: returns `b` if `b` is absolute, otherwise
  `a + b` when `a` is empty or ends with the separator, otherwise
  `a + "/" + b`.
* `open(path, "r")` followed by `.read()`: either produces the decoded
  text of the file or raises an exception; the snapshot records the
  outcome each file would produce if opened during this walk (a file
  deleted after being listed but before being opened is recorded as
  raising `FileNotFoundError`).
* Python's `in` on strings: contiguous, case-sensitive substring test.

Exceptions are modelled with `Except`: the `try/except` of the source
catches exactly `UnicodeDecodeError` and `PermissionError`; any other
exception propagates out of the loop and aborts the call.
-/

namespace FileTools

/-- Kinds of exceptions an `open(path, "r")` / `f.read()` can raise in the
source's traversal.  `fileNotFoundError` is what a file deleted between
being listed by `os.walk` and being opened raises; `osError` stands for
any other I/O error. -/
inductive PyError where
  | unicodeDecodeError
  | permissionError
  | fileNotFoundError
  | osError
deriving DecidableEq

/-- The `except (UnicodeDecodeError, PermissionError)` clause of
`search_files`: exactly these two exception classes are caught. -/
def caughtBySearch : PyError → Bool
  | .unicodeDecodeError => true
  | .permissionError => true
  | .fileNotFoundError => false
  | .osError => false

/-- Substring containment on character lists: Python's `needle in haystack`
for strings (case-sensitive, contiguous). -/
def charsContain (needle : List Char) : List Char → Bool
  | [] => needle.isEmpty
  | c :: rest => needle.isPrefixOf (c :: rest) || charsContain needle rest

/-- Python's `needle in haystack` on strings. -/
def strContains (haystack needle : String) : Bool :=
  charsContain needle.data haystack.data

/-- `s` starts with `pre` (on the underlying character lists). -/
def strStartsWith (s pre : String) : Bool :=
  pre.data.isPrefixOf s.data

/-- `s` ends with `suf` (on the underlying character lists). -/
def strEndsWith (s suf : String) : Bool :=
  suf.data.isSuffixOf s.data

/-- `os.path.join(a, b)` on POSIX for the cases arising here. -/
def pathJoin (a b : String) : String :=
  if strStartsWith b "/" then b
  else if a = "" ∨ strEndsWith a "/" then a ++ b
  else a ++ "/" ++ b

/-- One directory entry of the snapshot: a regular (non-directory) file
with the outcome `open(...).read()` would produce for it during this walk,
or a subdirectory with its own entries (in `os.listdir` order). -/
inductive Entry where
  | file (name : String) (read : Except PyError String)
  | dir (name : String) (children : List Entry)

/-- The `filenames` component `os.walk` yields for a directory: the
non-directory entries, in listing order, each with its read outcome. -/
def filesOf : List Entry → List (String × Except PyError String)
  | [] => []
  | .file n r :: rest => (n, r) :: filesOf rest
  | .dir _ _ :: rest => filesOf rest

/-- One `(dirpath, filenames)` triple yielded by `os.walk` (the `dirnames`
component is never used by `search_files` except implicitly to recurse, so
it is not carried). -/
abbrev Visit := String × List (String × Except PyError String)

mutual
/-- The visits `os.walk` produces for one entry of a directory at `path`:
none for a regular file; for a subdirectory, its own
`(dirpath, filenames)` triple followed by the visits of its subtree
(top-down walk). -/
def entryWalks (path : String) : Entry → List Visit
  | .file _ _ => []
  | .dir n ch => (pathJoin path n, filesOf ch) :: listWalks (pathJoin path n) ch

/-- The visits `os.walk` produces for the subdirectories of a directory at
`path` whose entries are given, in listing order. -/
def listWalks (path : String) : List Entry → List Visit
  | [] => []
  | e :: rest => entryWalks path e ++ listWalks path rest
end

/-- `os.walk(path)` over a directory with the given entries: the directory
itself first, then each subtree top-down in listing order. -/
def osWalk (path : String) (entries : List Entry) : List Visit :=
  (path, filesOf entries) :: listWalks path entries

/-- The snapshot found at the resolved search path: nothing there, a
regular file, or a directory with its entries. -/
inductive FS where
  | missing
  | file (read : Except PyError String)
  | dir (entries : List Entry)

/-- `os.walk` applied to the resolved search path.  With the default
`onerror=None`, a missing path or a non-directory path makes the initial
`scandir` fail silently and the walk yields no triples. -/
def walkFS (path : String) : FS → List Visit
  | .missing => []
  | .file _ => []
  | .dir entries => osWalk path entries

/-- The body of the inner `for file in files` loop for one file: if the
keyword occurs in the name, append the joined path (the file is not
opened); otherwise open and read it — on success test the content, on a
caught exception skip, on any other exception propagate. -/
def processFile (keyword root : String) (acc : List String)
    (f : String × Except PyError String) : Except PyError (List String) :=
  if strContains f.1 keyword then Except.ok (acc ++ [pathJoin root f.1])
  else
    match f.2 with
    | Except.ok content =>
        if strContains content keyword then Except.ok (acc ++ [pathJoin root f.1])
        else Except.ok acc
    | Except.error e =>
        if caughtBySearch e then Except.ok acc else Except.error e

/-- The inner `for file in files` loop: process the files of one visited
directory in order, threading `matching_files` and propagating any
uncaught exception. -/
def runFiles (keyword root : String) (acc : List String) :
    List (String × Except PyError String) → Except PyError (List String)
  | [] => Except.ok acc
  | f :: rest =>
      match processFile keyword root acc f with
      | Except.error e => Except.error e
      | Except.ok acc2 => runFiles keyword root acc2 rest

/-- The outer `for root, dirs, files in os.walk(...)` loop over the
visits, threading `matching_files` and propagating any uncaught
exception. -/
def runVisits (keyword : String) (acc : List String) :
    List Visit → Except PyError (List String)
  | [] => Except.ok acc
  | v :: rest =>
      match runFiles keyword v.1 acc v.2 with
      | Except.error e => Except.error e
      | Except.ok acc2 => runVisits keyword acc2 rest

/-- `Tools.search_files(keyword, directory)` run against the snapshot
`fs` found at `os.path.join(base_path, directory)`: an `Except.ok` value
is the returned list, an `Except.error` is an exception escaping the
call. -/
def search_files (keyword base_path directory : String) (fs : FS) :
    Except PyError (List String) :=
  runVisits keyword [] (walkFS (pathJoin base_path directory) fs)

/-! ### Analysis of one file visit

`matchedPath` records what a single iteration of the inner loop
contributes to `matching_files` when it completes without an uncaught
exception; `fatalFor` records when it instead raises. -/

/-- The contribution of one file to the result when its iteration
completes: the joined path if the name matches, otherwise the joined path
if the file reads successfully and its content matches, otherwise
nothing. -/
def matchedPath (keyword root : String) (f : String × Except PyError String) :
    Option String :=
  if strContains f.1 keyword then some (pathJoin root f.1)
  else
    match f.2 with
    | Except.ok content =>
        if strContains content keyword then some (pathJoin root f.1) else none
    | Except.error _ => none

/-- The file's iteration raises an uncaught exception: its name does not
contain the keyword (so it is opened) and opening/reading raises something
other than `UnicodeDecodeError` / `PermissionError`. -/
def fatalFor (keyword : String) (f : String × Except PyError String) : Bool :=
  !strContains f.1 keyword &&
    (match f.2 with
     | Except.ok _ => false
     | Except.error e => !caughtBySearch e)

/-- The file either reads successfully or fails with one of the two caught
exception classes. -/
def errCaught (f : String × Except PyError String) : Bool :=
  match f.2 with
  | Except.ok _ => true
  | Except.error e => caughtBySearch e

/-- All contributions of a list of visits, in traversal order. -/
def matchesOf (keyword : String) (visits : List Visit) : List String :=
  visits.flatMap (fun v => v.2.filterMap (matchedPath keyword v.1))

/-- The joined paths of all files yielded by a list of visits, in
traversal order. -/
def visitPaths (visits : List Visit) : List String :=
  visits.flatMap (fun v => v.2.map (fun f => pathJoin v.1 f.1))

lemma errCaught_not_fatal (keyword : String) (f : String × Except PyError String)
    (h : errCaught f = true) : fatalFor keyword f = false := by
  obtain ⟨n, rd⟩ := f
  cases rd with
  | ok c => simp [fatalFor]
  | error e =>
    simp [errCaught] at h
    simp [fatalFor, h]

lemma matchedPath_eq_some (keyword root : String)
    (f : String × Except PyError String) (q : String)
    (h : matchedPath keyword root f = some q) :
    q = pathJoin root f.1 ∧
      (strContains f.1 keyword = true ∨
        ∃ c, f.2 = Except.ok c ∧ strContains c keyword = true) := by
  obtain ⟨n, rd⟩ := f
  by_cases hn : strContains n keyword
  · simp [matchedPath, hn] at h
    exact ⟨h.symm, Or.inl hn⟩
  · cases rd with
    | ok c =>
      by_cases hc : strContains c keyword
      · simp [matchedPath, hn, hc] at h
        exact ⟨h.symm, Or.inr ⟨c, rfl, hc⟩⟩
      · simp [matchedPath, hn, hc] at h
    | error e => simp [matchedPath, hn] at h

lemma matchedPath_of_name (keyword root : String)
    (f : String × Except PyError String) (h : strContains f.1 keyword = true) :
    matchedPath keyword root f = some (pathJoin root f.1) := by
  simp [matchedPath, h]

lemma matchedPath_of_content (keyword root : String)
    (f : String × Except PyError String) (c : String)
    (hr : f.2 = Except.ok c) (hc : strContains c keyword = true) :
    matchedPath keyword root f = some (pathJoin root f.1) := by
  obtain ⟨n, rd⟩ := f
  simp only at hr
  subst hr
  by_cases hn : strContains n keyword
  · simp [matchedPath, hn]
  · simp [matchedPath, hn, hc]

lemma processFile_ok_iff (keyword root : String) (acc : List String)
    (f : String × Except PyError String) (l : List String) :
    processFile keyword root acc f = Except.ok l ↔
      fatalFor keyword f = false ∧
        l = acc ++ (matchedPath keyword root f).toList := by
  obtain ⟨n, rd⟩ := f
  by_cases hn : strContains n keyword
  · simp [processFile, fatalFor, matchedPath, hn, eq_comm]
  · cases rd with
    | ok c =>
      by_cases hc : strContains c keyword
      · simp [processFile, fatalFor, matchedPath, hn, hc, eq_comm]
      · simp [processFile, fatalFor, matchedPath, hn, hc, eq_comm]
    | error e =>
      by_cases he : caughtBySearch e
      · simp [processFile, fatalFor, matchedPath, hn, he, eq_comm]
      · simp [processFile, fatalFor, matchedPath, hn, he]

lemma processFile_error_of_fatal (keyword root : String) (acc : List String)
    (f : String × Except PyError String) (h : fatalFor keyword f = true) :
    ∃ e, f.2 = Except.error e ∧ caughtBySearch e = false ∧
      processFile keyword root acc f = Except.error e := by
  obtain ⟨n, rd⟩ := f
  simp [fatalFor] at h
  obtain ⟨hn, h2⟩ := h
  cases rd with
  | ok c => simp at h2
  | error e =>
    simp at h2
    exact ⟨e, rfl, h2, by simp [processFile, hn, h2]⟩

/-- The inner loop completes normally iff no file in the directory raises
an uncaught exception, and then it has appended exactly the contributions
of the files, in order. -/
lemma runFiles_ok_iff (keyword root : String)
    (files : List (String × Except PyError String)) :
    ∀ acc l, runFiles keyword root acc files = Except.ok l ↔
      (∀ f ∈ files, fatalFor keyword f = false) ∧
        l = acc ++ files.filterMap (matchedPath keyword root) := by
  induction files with
  | nil =>
    intro acc l
    rw [runFiles]
    simp
    exact eq_comm
  | cons f rest ih =>
    intro acc l
    constructor
    · intro h
      rw [runFiles] at h
      cases hp : processFile keyword root acc f with
      | error e => rw [hp] at h; exact absurd h (by simp)
      | ok acc2 =>
        rw [hp] at h
        simp only at h
        obtain ⟨hfat, hacc2⟩ := (processFile_ok_iff keyword root acc f acc2).mp hp
        obtain ⟨hall, hl⟩ := (ih acc2 l).mp h
        refine ⟨fun g hg => ?_, ?_⟩
        · rcases List.mem_cons.mp hg with hg | hg
          · exact hg ▸ hfat
          · exact hall g hg
        · subst hacc2
          rw [hl, List.filterMap_cons]
          cases hm : matchedPath keyword root f <;> simp [hm]
    · rintro ⟨hall, hl⟩
      rw [runFiles]
      have hfat : fatalFor keyword f = false := hall f (by simp)
      have hp : processFile keyword root acc f =
          Except.ok (acc ++ (matchedPath keyword root f).toList) :=
        (processFile_ok_iff keyword root acc f _).mpr ⟨hfat, rfl⟩
      rw [hp]
      simp only
      refine (ih _ l).mpr ⟨fun g hg => hall g (by simp [hg]), ?_⟩
      rw [hl, List.filterMap_cons]
      cases hm : matchedPath keyword root f <;> simp [hm]

/-- The outer loop completes normally iff no visited file raises an
uncaught exception, and then it has appended exactly the contributions of
all visits, in traversal order. -/
lemma runVisits_ok_iff (keyword : String) (visits : List Visit) :
    ∀ acc l, runVisits keyword acc visits = Except.ok l ↔
      (∀ v ∈ visits, ∀ f ∈ v.2, fatalFor keyword f = false) ∧
        l = acc ++ matchesOf keyword visits := by
  induction visits with
  | nil =>
    intro acc l
    rw [runVisits]
    simp [matchesOf]
    exact eq_comm
  | cons v rest ih =>
    intro acc l
    constructor
    · intro h
      rw [runVisits] at h
      cases hr : runFiles keyword v.1 acc v.2 with
      | error e => rw [hr] at h; exact absurd h (by simp)
      | ok acc2 =>
        rw [hr] at h
        simp only at h
        obtain ⟨hallv, hacc2⟩ := (runFiles_ok_iff keyword v.1 v.2 acc acc2).mp hr
        obtain ⟨hall, hl⟩ := (ih acc2 l).mp h
        refine ⟨fun w hw => ?_, ?_⟩
        · rcases List.mem_cons.mp hw with hw | hw
          · exact hw ▸ hallv
          · exact hall w hw
        · subst hacc2
          rw [hl]
          simp [matchesOf, List.append_assoc]
    · rintro ⟨hall, hl⟩
      rw [runVisits]
      have hr : runFiles keyword v.1 acc v.2 =
          Except.ok (acc ++ v.2.filterMap (matchedPath keyword v.1)) :=
        (runFiles_ok_iff keyword v.1 v.2 acc _).mpr ⟨hall v (by simp), rfl⟩
      rw [hr]
      simp only
      refine (ih _ l).mpr ⟨fun w hw => hall w (by simp [hw]), ?_⟩
      rw [hl]
      simp [matchesOf, List.append_assoc]

/-- `search_files` returns a list iff no visited file raises an uncaught
exception, and the returned list is exactly the contributions of the
visits of the walk, in traversal order. -/
lemma search_files_ok_iff (keyword base_path directory : String) (fs : FS)
    (l : List String) :
    search_files keyword base_path directory fs = Except.ok l ↔
      (∀ v ∈ walkFS (pathJoin base_path directory) fs, ∀ f ∈ v.2,
          fatalFor keyword f = false) ∧
        l = matchesOf keyword (walkFS (pathJoin base_path directory) fs) := by
  unfold search_files
  rw [runVisits_ok_iff]
  simp

lemma matchedPath_error_none (keyword root : String)
    (f : String × Except PyError String) (e : PyError)
    (hn : strContains f.1 keyword = false) (hr : f.2 = Except.error e) :
    matchedPath keyword root f = none := by
  obtain ⟨n, rd⟩ := f
  simp only at hn hr
  subst hr
  simp [matchedPath, hn]

lemma mem_matchesOf (keyword : String) (visits : List Visit) (v : Visit)
    (hv : v ∈ visits) (f : String × Except PyError String) (hf : f ∈ v.2)
    (q : String) (hm : matchedPath keyword v.1 f = some q) :
    q ∈ matchesOf keyword visits := by
  rw [matchesOf, List.mem_flatMap]
  exact ⟨v, hv, List.mem_filterMap.mpr ⟨f, hf, hm⟩⟩

lemma of_mem_matchesOf (keyword : String) (visits : List Visit) (q : String)
    (hq : q ∈ matchesOf keyword visits) :
    ∃ v ∈ visits, ∃ f ∈ v.2, matchedPath keyword v.1 f = some q := by
  rw [matchesOf, List.mem_flatMap] at hq
  obtain ⟨v, hv, hq⟩ := hq
  obtain ⟨f, hf, hm⟩ := List.mem_filterMap.mp hq
  exact ⟨v, hv, f, hf, hm⟩

lemma filterMap_matchedPath_sublist (keyword root : String)
    (files : List (String × Except PyError String)) :
    (files.filterMap (matchedPath keyword root)).Sublist
      (files.map (fun f => pathJoin root f.1)) := by
  induction files with
  | nil => simp
  | cons f rest ih =>
    rw [List.filterMap_cons, List.map_cons]
    cases hm : matchedPath keyword root f with
    | none => exact ih.cons _
    | some q =>
      have hq := (matchedPath_eq_some keyword root f q hm).1
      subst hq
      exact ih.cons₂ _

lemma matchesOf_sublist_visitPaths (keyword : String) (visits : List Visit) :
    (matchesOf keyword visits).Sublist (visitPaths visits) := by
  induction visits with
  | nil => simp [matchesOf, visitPaths]
  | cons v rest ih =>
    simp only [matchesOf, visitPaths, List.flatMap_cons]
    exact (filterMap_matchedPath_sublist keyword v.1 v.2).append ih

lemma pathJoin_empty_right (a : String) (h : strEndsWith a "/" = true) :
    pathJoin a "" = a := by
  unfold pathJoin
  have h1 : strStartsWith "" "/" = false := rfl
  rw [h1]
  simp [h]

/-! ### The claims -/

/-- C1 (counterexample): the claim that a file whose open/read fails for
*any* reason is silently skipped and the search never aborts is false.
The `except` clause catches only `UnicodeDecodeError` and
`PermissionError`; here a single file `a.bin` (name not containing the
keyword `"k"`) is deleted after being listed and before being opened, so
`open` raises `FileNotFoundError`, which is not caught: the whole search
aborts with that exception instead of returning a list. -/
theorem C1_counterexample :
    search_files "k" "/path/to/folder/" ""
        (FS.dir [Entry.file "a.bin" (Except.error PyError.fileNotFoundError)]) =
      Except.error PyError.fileNotFoundError := by
  rfl

/-- C1 (amended): if every file visited during the walk either reads
successfully or fails with one of the two exception classes the source
catches (`UnicodeDecodeError`, `PermissionError`), then the search
completes normally: it returns exactly the matched paths, every file
whose name does not contain the keyword and whose read failed is excluded
from the result (`matchedPath` maps it to `none`), and traversal
continues past it.  Read failures of any other class propagate and abort
the search (see `C1_counterexample`). -/
theorem C1_caught_read_failures_skipped (keyword base_path directory : String)
    (fs : FS)
    (h : ∀ v ∈ walkFS (pathJoin base_path directory) fs, ∀ f ∈ v.2,
        errCaught f = true) :
    search_files keyword base_path directory fs =
        Except.ok (matchesOf keyword (walkFS (pathJoin base_path directory) fs)) ∧
      ∀ v ∈ walkFS (pathJoin base_path directory) fs, ∀ f ∈ v.2,
        strContains f.1 keyword = false →
          ∀ e, f.2 = Except.error e → matchedPath keyword v.1 f = none := by
  refine ⟨?_, ?_⟩
  · exact (search_files_ok_iff keyword base_path directory fs _).mpr
      ⟨fun v hv f hf => errCaught_not_fatal keyword f (h v hv f hf), rfl⟩
  · intro v _ f _ hn e he
    exact matchedPath_error_none keyword v.1 f e hn he

/-- C1 (witness): a directory holding one undecodable file (read raises
`UnicodeDecodeError`) and one unreadable file (read raises
`PermissionError`), neither name containing the keyword: the search
returns normally and both files are excluded. -/
theorem C1_caught_read_failures_skipped_witness :
    search_files "key" "/path/to/folder/" ""
        (FS.dir [Entry.file "img.bin" (Except.error PyError.unicodeDecodeError),
                 Entry.file "locked.txt" (Except.error PyError.permissionError)]) =
        Except.ok (matchesOf "key" (walkFS (pathJoin "/path/to/folder/" "")
          (FS.dir [Entry.file "img.bin" (Except.error PyError.unicodeDecodeError),
                   Entry.file "locked.txt" (Except.error PyError.permissionError)]))) ∧
      ∀ v ∈ walkFS (pathJoin "/path/to/folder/" "")
          (FS.dir [Entry.file "img.bin" (Except.error PyError.unicodeDecodeError),
                   Entry.file "locked.txt" (Except.error PyError.permissionError)]),
        ∀ f ∈ v.2, strContains f.1 "key" = false →
          ∀ e, f.2 = Except.error e → matchedPath "key" v.1 f = none :=
  C1_caught_read_failures_skipped "key" "/path/to/folder/" "" _ (by decide)

/-- C2: the content test is applied only when the name test fails.  A
visited file whose name contains the keyword is in the result whatever
its read outcome (it is never opened); a visited file whose name does not
contain the keyword — assuming its joined path identifies it uniquely
among the visited files, as paths do on a real filesystem — is in the
result exactly when it reads successfully as text and its content
contains the keyword.  In particular a file that fails to decode is never
in the result, whatever bytes it holds. -/
theorem C2_content_test_only_when_name_fails (keyword base_path directory : String)
    (fs : FS) (l : List String)
    (hok : search_files keyword base_path directory fs = Except.ok l)
    (v : Visit) (hv : v ∈ walkFS (pathJoin base_path directory) fs)
    (f : String × Except PyError String) (hf : f ∈ v.2) :
    (strContains f.1 keyword = true → pathJoin v.1 f.1 ∈ l) ∧
    (strContains f.1 keyword = false →
      (∀ v' ∈ walkFS (pathJoin base_path directory) fs, ∀ f' ∈ v'.2,
          pathJoin v'.1 f'.1 = pathJoin v.1 f.1 → v' = v ∧ f' = f) →
      (pathJoin v.1 f.1 ∈ l ↔
        ∃ c, f.2 = Except.ok c ∧ strContains c keyword = true)) := by
  obtain ⟨-, hl⟩ := (search_files_ok_iff keyword base_path directory fs l).mp hok
  subst hl
  constructor
  · intro hn
    exact mem_matchesOf keyword _ v hv f hf _ (matchedPath_of_name keyword v.1 f hn)
  · intro hn huniq
    constructor
    · intro hmem
      obtain ⟨v', hv', f', hf', hm⟩ := of_mem_matchesOf keyword _ _ hmem
      obtain ⟨hq, hcase⟩ := matchedPath_eq_some keyword v'.1 f' _ hm
      obtain ⟨hveq, hfeq⟩ := huniq v' hv' f' hf' hq.symm
      subst hveq
      subst hfeq
      rcases hcase with hc | hc
      · simp [hn] at hc
      · exact hc
    · rintro ⟨c, hr, hc⟩
      exact mem_matchesOf keyword _ v hv f hf _
        (matchedPath_of_content keyword v.1 f c hr hc)

/-- C2 (witness): `b.txt` does not match `"search"` by name and its
content "contains search term" does, so its path is in the result. -/
theorem C2_content_test_only_when_name_fails_witness :
    (strContains "b.txt" "search" = true →
        pathJoin "/path/to/folder/" "b.txt" ∈ ["/path/to/folder/b.txt"]) ∧
    (strContains "b.txt" "search" = false →
      (∀ v' ∈ walkFS (pathJoin "/path/to/folder/" "")
          (FS.dir [Entry.file "b.txt" (Except.ok "contains search term")]),
        ∀ f' ∈ v'.2,
          pathJoin v'.1 f'.1 = pathJoin "/path/to/folder/" "b.txt" →
            v' = ("/path/to/folder/", [("b.txt", Except.ok "contains search term")]) ∧
              f' = ("b.txt", Except.ok "contains search term")) →
      (pathJoin "/path/to/folder/" "b.txt" ∈ ["/path/to/folder/b.txt"] ↔
        ∃ c, (Except.ok "contains search term" : Except PyError String) = Except.ok c ∧
          strContains c "search" = true)) :=
  C2_content_test_only_when_name_fails "search" "/path/to/folder/" ""
    (FS.dir [Entry.file "b.txt" (Except.ok "contains search term")])
    ["/path/to/folder/b.txt"] (by rfl)
    ("/path/to/folder/", [("b.txt", Except.ok "contains search term")])
    (by simp [walkFS, osWalk, filesOf, listWalks]; left; rfl)
    ("b.txt", Except.ok "contains search term") (by simp)

/-- C3: a visited file whose base name contains the keyword is in the
returned list, whatever its content or read outcome (its read outcome is
never consulted). -/
theorem C3_name_match_always_included (keyword base_path directory : String)
    (fs : FS) (l : List String)
    (hok : search_files keyword base_path directory fs = Except.ok l)
    (v : Visit) (hv : v ∈ walkFS (pathJoin base_path directory) fs)
    (f : String × Except PyError String) (hf : f ∈ v.2)
    (hname : strContains f.1 keyword = true) :
    pathJoin v.1 f.1 ∈ l := by
  obtain ⟨-, hl⟩ := (search_files_ok_iff keyword base_path directory fs l).mp hok
  subst hl
  exact mem_matchesOf keyword _ v hv f hf _ (matchedPath_of_name keyword v.1 f hname)

/-- C3 (witness): a file named `key.bin` that cannot be read at all (any
open would raise `OSError`) is still returned when searching for `"key"`,
because a name match precludes the open. -/
theorem C3_name_match_always_included_witness :
    pathJoin "/path/to/folder/" "key.bin" ∈ ["/path/to/folder/key.bin"] :=
  C3_name_match_always_included "key" "/path/to/folder/" ""
    (FS.dir [Entry.file "key.bin" (Except.error PyError.osError)])
    ["/path/to/folder/key.bin"] (by rfl)
    ("/path/to/folder/", [("key.bin", Except.error PyError.osError)])
    (by simp [walkFS, osWalk, filesOf, listWalks]; left; rfl)
    ("key.bin", Except.error PyError.osError) (by simp)
    (by rfl)

/-- C4: when the joined paths of the visited files are pairwise distinct
(as on a real filesystem), the returned list has no duplicates, and a
visited file that matches by name or by content appears in it exactly
once. -/
theorem C4_no_duplicate_paths (keyword base_path directory : String)
    (fs : FS) (l : List String)
    (hok : search_files keyword base_path directory fs = Except.ok l)
    (hnd : (visitPaths (walkFS (pathJoin base_path directory) fs)).Nodup) :
    l.Nodup ∧
      ∀ v ∈ walkFS (pathJoin base_path directory) fs, ∀ f ∈ v.2,
        (strContains f.1 keyword = true ∨
          ∃ c, f.2 = Except.ok c ∧ strContains c keyword = true) →
        List.count (pathJoin v.1 f.1) l = 1 := by
  obtain ⟨-, hl⟩ := (search_files_ok_iff keyword base_path directory fs l).mp hok
  subst hl
  have hnod : (matchesOf keyword (walkFS (pathJoin base_path directory) fs)).Nodup :=
    List.Nodup.sublist (matchesOf_sublist_visitPaths keyword _) hnd
  refine ⟨hnod, ?_⟩
  intro v hv f hf hm
  have hmem : pathJoin v.1 f.1 ∈
      matchesOf keyword (walkFS (pathJoin base_path directory) fs) := by
    rcases hm with hn | ⟨c, hr, hc⟩
    · exact mem_matchesOf keyword _ v hv f hf _ (matchedPath_of_name keyword v.1 f hn)
    · exact mem_matchesOf keyword _ v hv f hf _
        (matchedPath_of_content keyword v.1 f c hr hc)
  exact List.count_eq_one_of_mem hnod hmem

/-- C4 (witness): `search.txt` matches `"search"` both by name and by
content yet appears exactly once. -/
theorem C4_no_duplicate_paths_witness :
    (["/path/to/folder/search.txt"] : List String).Nodup ∧
      ∀ v ∈ walkFS (pathJoin "/path/to/folder/" "")
          (FS.dir [Entry.file "search.txt" (Except.ok "search me")]),
        ∀ f ∈ v.2,
          (strContains f.1 "search" = true ∨
            ∃ c, f.2 = Except.ok c ∧ strContains c "search" = true) →
          List.count (pathJoin v.1 f.1) ["/path/to/folder/search.txt"] = 1 :=
  C4_no_duplicate_paths "search" "/path/to/folder/" ""
    (FS.dir [Entry.file "search.txt" (Except.ok "search me")])
    ["/path/to/folder/search.txt"] (by rfl) (by decide)

/-- C5: a non-existent resolved search root makes `os.walk` yield nothing
(the initial `scandir` error is swallowed by the default handler), so the
search returns the empty list and raises nothing, for every keyword. -/
theorem C5_missing_root_empty_result (keyword base_path directory : String) :
    search_files keyword base_path directory FS.missing = Except.ok [] :=
  rfl

/-- C6 (counterexample): the claim that an empty/absent root path
argument is rejected with a validation error before traversal is false.
`search_files` performs no argument validation: called with the default
empty `directory` (and the source's configured
`base_path = "/path/to/folder/"`), `os.path.join` resolves the search
path to the base path itself, traversal proceeds, and a match is
returned — no error of any kind is raised. -/
theorem C6_counterexample :
    search_files "a" "/path/to/folder/" ""
        (FS.dir [Entry.file "abc" (Except.ok "")]) =
      Except.ok ["/path/to/folder/abc"] := by
  rfl

/-- C6 (amended): an empty or absent `directory` argument is not
rejected — no validation is performed; since the configured base path
ends with the separator, `os.path.join(base_path, "")` is the base path
itself and the search runs normally over it. -/
theorem C6_empty_directory_searches_base (keyword base_path : String)
    (fs : FS) (h : strEndsWith base_path "/" = true) :
    search_files keyword base_path "" fs =
      runVisits keyword [] (walkFS base_path fs) := by
  unfold search_files
  rw [pathJoin_empty_right base_path h]

/-- C6 (witness): the amended statement at the source's configured base
path. -/
theorem C6_empty_directory_searches_base_witness :
    search_files "x" "/path/to/folder/" "" FS.missing =
      runVisits "x" [] (walkFS "/path/to/folder/" FS.missing) :=
  C6_empty_directory_searches_base "x" "/path/to/folder/" FS.missing (by rfl)

/-- C7: the result of `search_files` is a function of the keyword and of
the sequence of `(dirpath, filenames)` triples the walk yields for the
directory snapshot: two invocations over the same unchanged snapshot
yield the same `os.walk` sequence and hence identical results (same paths
in the same order). -/
theorem C7_deterministic (keyword b₁ d₁ b₂ d₂ : String) (fs₁ fs₂ : FS)
    (h : walkFS (pathJoin b₁ d₁) fs₁ = walkFS (pathJoin b₂ d₂) fs₂) :
    search_files keyword b₁ d₁ fs₁ = search_files keyword b₂ d₂ fs₂ := by
  unfold search_files
  rw [h]

/-- C7 (witness): two invocations against the same snapshot. -/
theorem C7_deterministic_witness :
    search_files "search" "/path/to/folder/" "docs"
        (FS.dir [Entry.file "a_search.txt" (Except.ok "hello")]) =
      search_files "search" "/path/to/folder/" "docs"
        (FS.dir [Entry.file "a_search.txt" (Except.ok "hello")]) :=
  C7_deterministic "search" "/path/to/folder/" "docs" "/path/to/folder/" "docs"
    (FS.dir [Entry.file "a_search.txt" (Except.ok "hello")])
    (FS.dir [Entry.file "a_search.txt" (Except.ok "hello")]) rfl

/-- C8: every element of a returned list is the joined path of a file
yielded by some visit of the walk — the `filenames` component of a visit
holds exactly the non-directory entries of that directory (`filesOf`
drops `Entry.dir`), so directories are never in the result, even when a
directory's name contains the keyword. -/
theorem C8_results_are_visited_files (keyword base_path directory : String)
    (fs : FS) (l : List String)
    (hok : search_files keyword base_path directory fs = Except.ok l) :
    ∀ q ∈ l, ∃ v ∈ walkFS (pathJoin base_path directory) fs,
      ∃ f ∈ v.2, q = pathJoin v.1 f.1 := by
  obtain ⟨-, hl⟩ := (search_files_ok_iff keyword base_path directory fs l).mp hok
  subst hl
  intro q hq
  obtain ⟨v, hv, f, hf, hm⟩ := of_mem_matchesOf keyword _ q hq
  exact ⟨v, hv, f, hf, (matchedPath_eq_some keyword v.1 f q hm).1⟩

/-- C8 (witness): a directory named `keydir` matches the keyword by name
but is not in the result; the only result element is the regular file
`note.txt`, a file of the root visit. -/
theorem C8_results_are_visited_files_witness :
    ∃ v ∈ walkFS (pathJoin "/path/to/folder/" "")
      (FS.dir [Entry.dir "keydir" [], Entry.file "note.txt" (Except.ok "has key")]),
      ∃ f ∈ v.2, "/path/to/folder/note.txt" = pathJoin v.1 f.1 :=
  C8_results_are_visited_files "key" "/path/to/folder/" ""
    (FS.dir [Entry.dir "keydir" [], Entry.file "note.txt" (Except.ok "has key")])
    ["/path/to/folder/note.txt"] (by rfl)
    "/path/to/folder/note.txt" (by simp)

/-- C9: the concrete scenario — `root` holds `a_search.txt` (content
"hello"), `b.txt` (content "contains search term") and `sub/c.txt`
(content "nothing"); searching for `"search"` returns exactly
`a_search.txt` (name match) then `b.txt` (content match) in traversal
order, and excludes `sub/c.txt`. -/
theorem C9_concrete_scenario :
    search_files "search" "/path/to/folder/" "root"
        (FS.dir [Entry.file "a_search.txt" (Except.ok "hello"),
                 Entry.file "b.txt" (Except.ok "contains search term"),
                 Entry.dir "sub" [Entry.file "c.txt" (Except.ok "nothing")]]) =
      Except.ok ["/path/to/folder/root/a_search.txt",
                 "/path/to/folder/root/b.txt"] := by
  rfl

/-- C10: when the resolved search path is an existing regular file rather
than a directory, `os.walk`'s initial `scandir` fails with
`NotADirectoryError`, swallowed by the default handler, so the walk
yields no triples and the search returns the empty list without error,
whatever the file's readability. -/
theorem C10_file_root_empty_result (keyword base_path directory : String)
    (read : Except PyError String) :
    search_files keyword base_path directory (FS.file read) = Except.ok [] :=
  rfl

end FileTools
